import Mathlib

/-!
Verification of the core orchestration layer of the Stellarium Web Engine
(`src/core.h`, `src/module.h`): the module tree iteration macro, the
photometric engine, the eye-adaptation state, the animation state machine,
the frame task scheduler, and the progressive listing protocol.

The repository ships the headers (type declarations, documented contracts
and the `MODULE_ITER` macro).  `MODULE_ITER` is embedded directly from its
source text; the functions whose bodies live outside the provided files are
modelled from the specification, as indicated on each definition.
-/

namespace Stellarium

/-! ### Module tree iteration (`module.h`, macro `MODULE_ITER`) -/

/-- Embeds the C `obj_klass_t` as far as `MODULE_ITER` reads it: the class
identifier string, which may be a null pointer (`none`). -/
structure klass_t where
  id : Option String

/-- Embeds the C `obj_t` as far as `MODULE_ITER` reads it: an optional class
pointer and the sibling chain of children (`children` / `next` pointers,
in sibling-chain order). -/
inductive obj_t where
  | mk (klass : Option klass_t) (children : List obj_t)

/-- The `klass` field of an object (a possibly-null pointer in C). -/
def obj_t.klass : obj_t → Option klass_t
  | .mk k _ => k

/-- The children of an object, in sibling-chain order. -/
def obj_t.children : obj_t → List obj_t
  | .mk _ c => c

/-- The filter condition of the `MODULE_ITER` macro, translated clause by
clause from `module.h` lines 117-120:
`!(klass_) || (child->klass && child->klass->id && strcmp(child->klass->id, klass_ ?: "") == 0)`.
(The GNU `?: ""` fallback is only reached when `klass_` is non-null, where it
is the identity.) -/
def MODULE_ITER_keep (klass_ : Option String) (child : obj_t) : Bool :=
  match klass_ with
  | none => true
  | some k =>
    match child.klass with
    | none => false
    | some kl =>
      match kl.id with
      | none => false
      | some i => i == k

/-- The sequence of children visited by the `MODULE_ITER` macro
(`module.h` lines 114-120): walk the sibling chain, visiting each child
that satisfies the filter condition. -/
def MODULE_ITER (module : obj_t) (klass_ : Option String) : List obj_t :=
  module.children.filter (MODULE_ITER_keep klass_)

/-! ### Screen radius / apparent angle conversion (`core.h` lines 372-405) -/

/-- Modelled from the spec: the body of `core_get_apparent_angle_for_point`
is not part of the provided sources.  Per the spec the active projection
determines a linear conversion between screen pixel radius and physical
angular radius, so the projection state is reduced to the conversion factor
(radians of physical angle per window pixel). -/
structure projection_t where
  rad_per_pixel : ℚ

/-- Modelled from the spec: `core_get_apparent_angle_for_point(proj, r)`
returns the angular radius (radian) of a round object from its pixel radius
on screen, a linear function of `r` under the active projection. -/
def core_get_apparent_angle_for_point (proj : projection_t) (r : ℚ) : ℚ :=
  r * proj.rad_per_pixel

/-- Modelled from the spec: `core_get_point_for_apparent_angle(proj, angle)`
is the inverse conversion, giving the pixel radius of a circle with a given
apparent angle. -/
def core_get_point_for_apparent_angle (proj : projection_t) (angle : ℚ) : ℚ :=
  angle / proj.rad_per_pixel

/-! ### Magnitude to illuminance (`core.h` lines 307-319) -/

/-- Modelled from the spec: the reference zero point of the magnitude scale
(illuminance of a magnitude-0 source, in lux); the body of
`core_mag_to_illuminance` is not part of the provided sources. -/
noncomputable def mag_0_illuminance : ℝ := (10 : ℝ) ^ (-(5.672 : ℝ))

/-- Modelled from the spec: `core_mag_to_illuminance(vmag)` computes the
illuminance for a given magnitude using the standard astronomical
magnitude-to-flux relation — illuminance decreases by a factor of `10^0.4`
per magnitude step, anchored to the reference zero point. -/
noncomputable def core_mag_to_illuminance (vmag : ℝ) : ℝ :=
  mag_0_illuminance * (10 : ℝ) ^ (-(0.4 : ℝ) * vmag)

/-! ### Point radius and luminance for a magnitude (`core.h` lines 295-305) -/

/-- Rational clamp of `x` to the interval `[lo, hi]`. -/
def clampq (lo hi x : ℚ) : ℚ := max lo (min hi x)

/-- Modelled from the spec: the photometric/adaptation state of the core
singleton (`core_t`, `core.h` lines 51-99), reduced to the fields that
`core_get_point_for_mag` reads. -/
structure core_state_t where
  display_limit_mag : ℚ
  lwmax : ℚ
  lwmax_min : ℚ
  min_point_radius : ℚ
  max_point_radius : ℚ
  skip_point_radius : ℚ
  star_linear_scale : ℚ

/-- Validity of an adaptation state: the clamping interval for point radii
is well formed. -/
def core_state_t.valid (c : core_state_t) : Prop :=
  c.min_point_radius ≤ c.max_point_radius

/-- Modelled from the spec: the pre-clamp point radius the photometric
engine derives from a visual magnitude.  The spec leaves the exact formula
open (design note on undocumented constants); the theorems below depend
only on its existence, never on its shape. -/
def point_radius_raw (c : core_state_t) (mag : ℚ) : ℚ :=
  c.star_linear_scale * (c.display_limit_mag - mag)

/-- Modelled from the spec: the tonemapped, pre-clamp luminance of a point
of the given magnitude against the current `lwmax` (exact tonemapping curve
left open by the spec; the theorems below do not depend on its shape). -/
def point_luminance_raw (c : core_state_t) (mag : ℚ) : ℚ :=
  (c.display_limit_mag - mag) / (c.lwmax + 1)

/-- Modelled from the spec: `core_get_point_for_mag(mag, ...)` (`core.h`
lines 295-305): not visible (`none`) when the magnitude is fainter than
`display_limit_mag` or the point radius falls below `skip_point_radius`;
otherwise the point radius clamped to `[min_point_radius, max_point_radius]`
paired with a gamma-corrected luminance clamped to `[0, 1]`. -/
def core_get_point_for_mag (c : core_state_t) (mag : ℚ) : Option (ℚ × ℚ) :=
  if c.display_limit_mag < mag then none
  else if point_radius_raw c mag < c.skip_point_radius then none
  else some (clampq c.min_point_radius c.max_point_radius (point_radius_raw c mag),
             clampq 0 1 (point_luminance_raw c mag))

/-- Modelled from the spec and the doc comment of `core_get_point_for_mag`
("luminance ... Ignored if set to NULL", `core.h` lines 302-303): the C
entry point with its output pointers made explicit.  `luminance_is_null`
says whether the luminance output pointer is null; the last component
records what is written through that pointer (`none` when nothing is
written — in particular a null pointer is never dereferenced). -/
def core_get_point_for_mag_c (c : core_state_t) (mag : ℚ)
    (luminance_is_null : Bool) : Bool × ℚ × Option ℚ :=
  match core_get_point_for_mag c mag with
  | none => (false, 0, none)
  | some (r, l) => (true, r, if luminance_is_null then none else some l)

/-! ### Eye adaptation (`core.h` lines 69-78 and 279-293) -/

/-- Modelled from the spec: the eye-adaptation state of the core singleton:
current max visible luminance `lwmax`, its floor `lwmax_min`, and the
luminance reported in the field of view during the current frame. -/
structure adaptation_t where
  lwmax : ℚ
  lwmax_min : ℚ
  frame_lum : ℚ

/-- Modelled from the spec: `core_report_luminance_in_fov(lum, fast)` folds
a pre-computed luminance into the running estimate of the luminance in the
field of view for the current frame. -/
def core_report_luminance_in_fov (st : adaptation_t) (lum : ℚ)
    (_fast : Bool) : adaptation_t :=
  { st with frame_lum := max st.frame_lum lum }

/-- Modelled from the spec: `core_report_vmag_in_fov(vmag, r, sep)` folds the
luminance contribution of one visible object, weighted by its radius and
its separation from the view center, into the frame estimate (exact weights
left open by the spec). -/
def core_report_vmag_in_fov (st : adaptation_t) (vmag r sep : ℚ) : adaptation_t :=
  { st with frame_lum := max st.frame_lum ((1 - vmag / 100) * r / (1 + sep)) }

/-- Modelled from the spec: the end-of-frame adaptation update: `lwmax`
moves toward the frame's reported luminance by an exponential approach of
rate `speed` (higher under fast adaptation) and is floored at `lwmax_min` so
the view never goes fully black; the frame accumulator is reset. -/
def adaptation_frame_update (st : adaptation_t) (speed : ℚ) : adaptation_t :=
  { st with
    lwmax := max st.lwmax_min (st.lwmax + speed * (st.frame_lum - st.lwmax)),
    frame_lum := 0 }

/-- An adaptation event: a luminance report, a vmag report, or the
end-of-frame adaptation update (with the frame's adaptation rate). -/
inductive adapt_event_t where
  | reportLum (lum : ℚ) (fast : Bool)
  | reportVmag (vmag r sep : ℚ)
  | frame (speed : ℚ)

/-- Run one adaptation event against the adaptation state. -/
def adapt_step (st : adaptation_t) : adapt_event_t → adaptation_t
  | .reportLum lum fast => core_report_luminance_in_fov st lum fast
  | .reportVmag v r sep => core_report_vmag_in_fov st v r sep
  | .frame speed => adaptation_frame_update st speed

/-- Run a sequence of adaptation events. -/
def adapt_run (st : adaptation_t) (evs : List adapt_event_t) : adaptation_t :=
  evs.foldl adapt_step st

/-! ### Animations (`core.h` lines 112-134 and 407-448) -/

/-- The animation state shared by the three animations (`core.h`
`fov_animation` / `time_animation` structs): progress `t` going from 0 to
1, duration in seconds, source and destination values. -/
structure anim_t where
  t : ℚ
  duration : ℚ
  src : ℚ
  dst : ℚ

/-- Modelled from the spec: starting an animation snapshots the current
value as `src`, sets `dst` to the target, records the duration, and resets
the progress — directly to 1 when the duration is zero or negative ("apply
instantly"), to 0 otherwise. -/
def anim_start (cur dst duration : ℚ) : anim_t :=
  if duration ≤ 0 then ⟨1, duration, cur, dst⟩ else ⟨0, duration, cur, dst⟩

/-- Externally visible value of a scalar animation: `lerp(src, dst)` at
progress `t`. -/
def anim_t.value (a : anim_t) : ℚ := a.src + (a.dst - a.src) * a.t

/-- A pointing quaternion as stored in the target animation
(`src_q` / `dst_q`, `core.h` lines 114-115). -/
structure quat_t where
  x : ℚ
  y : ℚ
  z : ℚ
  w : ℚ

/-- Componentwise interpolation of quaternions at progress `t`.  The spec
prescribes spherical interpolation, which agrees with the componentwise one
at the endpoints `t = 0` and `t = 1` — the only points the theorems below
read. -/
def quat_lerp (a b : quat_t) (t : ℚ) : quat_t :=
  ⟨a.x + (b.x - a.x) * t, a.y + (b.y - a.y) * t,
   a.z + (b.z - a.z) * t, a.w + (b.w - a.w) * t⟩

/-- The pointing-lock animation state (`core.h` lines 112-120,
`core->target`): optional locked object id, source and destination
quaternions, progress, duration, and the move-to-lock flag. -/
structure target_t where
  lock : Option Nat
  src_q : quat_t
  dst_q : quat_t
  t : ℚ
  duration : ℚ
  move_to_lock : Bool

/-- Externally visible pointing direction of the target animation. -/
def target_t.value (tg : target_t) : quat_t := quat_lerp tg.src_q tg.dst_q tg.t

/-- The animation-related state of the core singleton: current fov,
observer time and view direction, and the three animations. -/
structure core_anim_t where
  fov : ℚ
  observer_tt : ℚ
  view_q : quat_t
  fov_animation : anim_t
  time_animation : anim_t
  target : target_t

/-- Modelled from the spec: `core_zoomto(fov, duration)` starts the
field-of-view animation from the current fov toward the given fov. -/
def core_zoomto (c : core_anim_t) (fov duration : ℚ) : core_anim_t :=
  { c with fov_animation := anim_start c.fov fov duration }

/-- Modelled from the spec: `core_set_time(tt, duration)` starts the time
animation from the current observer time toward the given time. -/
def core_set_time (c : core_anim_t) (tt duration : ℚ) : core_anim_t :=
  { c with time_animation := anim_start c.observer_tt tt duration }

/-- Modelled from the spec: starting the pointing animation toward a
direction: snapshot the current view quaternion as `src_q`, set `dst_q`,
record the duration and the optional lock, and reset the progress (directly
to 1 for a zero or negative duration). -/
def target_start (c : core_anim_t) (lock : Option Nat) (q : quat_t)
    (duration : ℚ) : target_t :=
  { lock := lock, src_q := c.view_q, dst_q := q,
    t := if duration ≤ 0 then 1 else 0, duration := duration,
    move_to_lock := lock.isSome }

/-- Modelled from the spec: `core_lookat(pos, duration)` starts the
pointing animation toward the given direction, with no lock. -/
def core_lookat (c : core_anim_t) (q : quat_t) (duration : ℚ) : core_anim_t :=
  { c with target := target_start c none q duration }

/-- Modelled from the spec: `core_point_and_lock(target, duration)` starts
the pointing animation toward the direction of the given object and locks
onto it. -/
def core_point_and_lock (c : core_anim_t) (oid : Nat) (q : quat_t)
    (duration : ℚ) : core_anim_t :=
  { c with target := target_start c (some oid) q duration }

/-! ### Lock safety under entity destruction (`core.h` lines 112-120) -/

/-- Look up a live entity by object id in the registry of live entities
(each with its object id and current pointing direction). -/
def registry_find (reg : List (Nat × quat_t)) (oid : Nat) : Option quat_t :=
  match reg with
  | [] => none
  | (i, q) :: rest => if i = oid then some q else registry_find rest oid

/-- Modelled from the spec: destroying an entity removes it from the
registry of live entities and invalidates (nulls out) any weak reference
still pointing at it — in particular the pointing lock. -/
def obj_destroy (reg : List (Nat × quat_t)) (c : core_anim_t) (oid : Nat) :
    List (Nat × quat_t) × core_anim_t :=
  (reg.filter (fun e => e.1 != oid),
   { c with target := { c.target with
       lock := if c.target.lock = some oid then none else c.target.lock } })

/-- Modelled from the spec: the per-frame pointing-target tracking step of
`core_update`: while a lock is held, the locked entity's current direction
is read from the registry (a dereference of the locked object) and becomes
the animation destination; with no lock the state is left untouched. -/
def core_update_target (reg : List (Nat × quat_t)) (c : core_anim_t) :
    core_anim_t :=
  match c.target.lock with
  | none => c
  | some oid =>
    match registry_find reg oid with
    | some q => { c with target := { c.target with dst_q := q } }
    | none => c

/-! ### Frame task scheduler (`core.h` lines 34-46 and 515-521) -/

/-- Embeds the C `task_t` (`core.h` lines 41-46) as far as the scheduler
reads it: an identifier standing for the function/user pair, the task
function — abstracted as returning, for the n-th invocation (1-based),
whether the task returns a nonzero ("done") status — and the number of
invocations so far. -/
structure task_t where
  id : Nat
  fn : Nat → Bool
  runs : Nat

/-- Modelled from the spec: `core_add_task(fun, user)` prepends a fresh task
to the task list. -/
def core_add_task (tasks : List task_t) (id : Nat) (fn : Nat → Bool) :
    List task_t :=
  ⟨id, fn, 0⟩ :: tasks

/-- One frame over the task list: every task is invoked once; a task whose
function returns the terminal status is unlinked (second component), the
others keep their place for the next frame (first component). -/
def tasks_frame : List task_t → List task_t × List task_t
  | [] => ([], [])
  | t :: rest =>
    let t1 : task_t := { t with runs := t.runs + 1 }
    let p := tasks_frame rest
    if t.fn (t.runs + 1) then (p.1, t1 :: p.2) else (t1 :: p.1, p.2)

/-- The scheduler state: the active task list and the record of finished
tasks (the C code forgets a finished task; the record only keeps its final
invocation count observable). -/
structure sched_t where
  tasks : List task_t
  finished : List task_t

/-- One frame of the scheduler. -/
def sched_frame (s : sched_t) : sched_t :=
  let p := tasks_frame s.tasks
  { tasks := p.1, finished := p.2 ++ s.finished }

/-- Run `n` frames of the scheduler. -/
def sched_run (s : sched_t) : Nat → sched_t
  | 0 => s
  | n + 1 => sched_run (sched_frame s) n

/-- Total number of invocations of the task with the given id so far. -/
def invocations (s : sched_t) (id : Nat) : Nat :=
  (((s.tasks ++ s.finished).filter (fun t => t.id == id)).map task_t.runs).sum

/-- Task A of the three-task scenario (id 0): never returns the terminal
status. -/
def mkA (r : Nat) : task_t := ⟨0, fun _ => false, r⟩

/-- Task B of the three-task scenario (id 1): returns the terminal status
exactly on its second invocation. -/
def mkB (r : Nat) : task_t := ⟨1, fun n => n == 2, r⟩

/-- Task C of the three-task scenario (id 2): never returns the terminal
status. -/
def mkC (r : Nat) : task_t := ⟨2, fun _ => false, r⟩

/-- The three-task scenario: A, B, C registered in order with
`core_add_task`. -/
def abc_tasks : sched_t :=
  { tasks := core_add_task (core_add_task (core_add_task []
      0 (fun _ => false)) 1 (fun n => n == 2)) 2 (fun _ => false),
    finished := [] }

/-! ### Progressive listing protocol (`module.h` lines 2-21) -/

/-- Modelled from the spec: the state of an external progressive data
source: the entities already loaded and those still pending. -/
structure source_t where
  loaded : List Nat
  pending : List Nat

/-- Modelled from the spec: one external loading step — the next pending
entity becomes available. -/
def source_load_one (s : source_t) : source_t :=
  match s.pending with
  | [] => s
  | e :: rest => { loaded := s.loaded ++ [e], pending := rest }

/-- Result of a listing call (`module.h` lines 13-17): success when all
available matches were visited, or again (`OBJ_AGAIN`) when some backing
data is still loading and calling the function again later might return
more values. -/
inductive list_result_t where
  | success
  | again

/-- The state of a repeated-listing run: the data source and the log of
entities visited by the callback so far, in visit order. -/
structure listing_t where
  src : source_t
  log : List Nat

/-- Modelled from the spec: one call to `module_list_objs`: the callback
visits every loaded matching entity not yet visited on an earlier call of
the sequence, and the call reports `again` exactly when backing data is
still pending. -/
def module_list_objs (r : listing_t) : listing_t × list_result_t :=
  ({ r with
     log := r.log ++ r.src.loaded.filter (fun e => decide (e ∉ r.log)) },
   if r.src.pending.isEmpty then .success else .again)

/-- An event of the listing scenario: an external load step or a listing
call by the client. -/
inductive list_event_t where
  | load
  | list

/-- Run one listing-scenario event. -/
def listing_step (r : listing_t) : list_event_t → listing_t
  | .load => { r with src := source_load_one r.src }
  | .list => (module_list_objs r).1

/-- Run a sequence of listing-scenario events. -/
def listing_run (r : listing_t) (evs : List list_event_t) : listing_t :=
  evs.foldl listing_step r

/-- The initial listing state over a universe `all` of entities: nothing
loaded yet, nothing visited yet. -/
def listing_init (all : List Nat) : listing_t := ⟨⟨[], all⟩, []⟩

/-- Invariant of a listing run: the visit log has no duplicates, the log
only holds loaded entities, and the loaded and pending entities together
are a permutation of the universe. -/
def listing_inv (all : List Nat) (r : listing_t) : Prop :=
  r.log.Nodup ∧ (∀ e ∈ r.log, e ∈ r.src.loaded) ∧
    (r.src.loaded ++ r.src.pending).Perm all

/-! ### Concrete fixtures used by the witnesses -/

/-- A concrete photometric state: display limit 6, `lwmax` 1, floor 1/100,
point radii in [1, 10], skip threshold 1/2, unit scale. -/
def core_state_ex : core_state_t := ⟨6, 1, 1/100, 1, 10, 1/2, 1⟩

/-- A concrete quaternion. -/
def quat_ex : quat_t := ⟨1, 0, 0, 0⟩

/-- A concrete core animation state. -/
def core_anim_ex : core_anim_t :=
  { fov := 1, observer_tt := 5, view_q := ⟨0, 1, 0, 0⟩,
    fov_animation := ⟨0, 1, 0, 0⟩, time_animation := ⟨0, 1, 0, 0⟩,
    target := ⟨none, ⟨1, 0, 0, 0⟩, ⟨1, 0, 0, 0⟩, 0, 1, false⟩ }

/-! ### Theorems -/

/-- C10: `MODULE_ITER` with a null class filter visits every child exactly
once in sibling-chain order (the visited sequence is the children list
itself); with a non-null filter it visits exactly those children whose class
identifier string compares equal to the filter, so a child with a null class
pointer or a null class identifier is never visited under a non-null
filter. -/
theorem MODULE_ITER_spec (m : obj_t) (k : String) (c : obj_t) :
    MODULE_ITER m none = m.children ∧
    (c ∈ MODULE_ITER m (some k) ↔
      c ∈ m.children ∧ ∃ kl i, c.klass = some kl ∧ kl.id = some i ∧ i = k) := by
  constructor
  · simp [ MODULE_ITER, MODULE_ITER_keep]
  · simp only [ MODULE_ITER, List.mem_filter, and_congr_right_iff]
    intro _
    constructor
    · intro h
      rcases hk : c.klass with _ | kl
      · simp [ MODULE_ITER_keep, hk] at h
      · rcases hi : kl.id with _ | i
        · simp [ MODULE_ITER_keep, hk, hi] at h
        · refine ⟨kl, i, rfl, hi, ?_⟩
          simpa [ MODULE_ITER_keep, hk, hi] using h
    · rintro ⟨kl, i, hk, hi, rfl⟩
      simp [ MODULE_ITER_keep, hk, hi]

/-- C2: the two conversions between screen pixel radius and physical angular
radius are exact inverses: for every projection with a nonzero conversion
factor and every pixel radius `r`,
`core_get_point_for_apparent_angle(proj, core_get_apparent_angle_for_point(proj, r)) = r`. -/
theorem point_angle_round_trip (proj : projection_t) (r : ℚ)
    (h : proj.rad_per_pixel ≠ 0) :
    core_get_point_for_apparent_angle proj
      (core_get_apparent_angle_for_point proj r) = r := by
  simp [core_get_point_for_apparent_angle, core_get_apparent_angle_for_point]
  field_simp

/-- Witness for C2 at a concrete projection (2 radians per pixel) and the
concrete radius 3. -/
theorem point_angle_round_trip_witness :
    (projection_t.mk 2).rad_per_pixel ≠ 0 ∧
    core_get_point_for_apparent_angle (projection_t.mk 2)
      (core_get_apparent_angle_for_point (projection_t.mk 2) 3) = 3 :=
  ⟨by decide, point_angle_round_trip (projection_t.mk 2) 3 (by decide)⟩

/-- C1: for every pair of magnitudes `m1 < m2` (brighter to fainter),
`core_mag_to_illuminance m1 > core_mag_to_illuminance m2`, and the ratio
`core_mag_to_illuminance m1 / core_mag_to_illuminance m2` is exactly
`10 ^ (0.4 * (m2 - m1))`. -/
theorem core_mag_to_illuminance_mono_ratio (m1 m2 : ℝ) (h : m1 < m2) :
    core_mag_to_illuminance m1 > core_mag_to_illuminance m2 ∧
    core_mag_to_illuminance m1 / core_mag_to_illuminance m2
      = (10 : ℝ) ^ ((0.4 : ℝ) * (m2 - m1)) := by
  have h10 : (0 : ℝ) < 10 := by norm_num
  have h10' : (1 : ℝ) < 10 := by norm_num
  have hZ : 0 < mag_0_illuminance := Real.rpow_pos_of_pos h10 _
  constructor
  · have hexp : (-(0.4 : ℝ)) * m2 < (-(0.4 : ℝ)) * m1 := by nlinarith
    exact mul_lt_mul_of_pos_left
      ((Real.rpow_lt_rpow_left_iff h10').mpr hexp) hZ
  · unfold core_mag_to_illuminance
    rw [mul_div_mul_left _ _ (ne_of_gt hZ), ← Real.rpow_sub h10]
    congr 1
    ring

/-- Witness for C1 at the concrete magnitudes 0 and 1. -/
theorem core_mag_to_illuminance_mono_ratio_witness :
    (0 : ℝ) < 1 ∧
    (core_mag_to_illuminance 0 > core_mag_to_illuminance 1 ∧
     core_mag_to_illuminance 0 / core_mag_to_illuminance 1
       = (10 : ℝ) ^ ((0.4 : ℝ) * (1 - 0))) :=
  ⟨by norm_num, core_mag_to_illuminance_mono_ratio 0 1 (by norm_num)⟩

/-- Helper: the clamp is at least the lower bound. -/
theorem le_clampq (lo hi x : ℚ) : lo ≤ clampq lo hi x := le_max_left _ _

/-- Helper: under a well-formed interval the clamp is at most the upper
bound. -/
theorem clampq_le (lo hi x : ℚ) (h : lo ≤ hi) : clampq lo hi x ≤ hi :=
  max_le h (min_le_left _ _)

/-- C3: for every valid adaptation state, `core_get_point_for_mag` returns
not-visible for any magnitude fainter than `display_limit_mag`; when it
returns a visible result, the radius lies in
`[min_point_radius, max_point_radius]` and the luminance lies in `[0, 1]`. -/
theorem core_get_point_for_mag_spec (c : core_state_t) (mag r l : ℚ)
    (hv : c.valid) :
    (c.display_limit_mag < mag → core_get_point_for_mag c mag = none) ∧
    (core_get_point_for_mag c mag = some (r, l) →
      c.min_point_radius ≤ r ∧ r ≤ c.max_point_radius ∧ 0 ≤ l ∧ l ≤ 1) := by
  constructor
  · intro h
    simp [core_get_point_for_mag, h]
  · intro h
    by_cases h1 : c.display_limit_mag < mag
    · simp [core_get_point_for_mag, h1] at h
    · by_cases h2 : point_radius_raw c mag < c.skip_point_radius
      · simp [core_get_point_for_mag, h1, h2] at h
      · simp [core_get_point_for_mag, h1, h2] at h
        obtain ⟨hr, hl⟩ := h
        subst hr
        subst hl
        exact ⟨le_clampq _ _ _, clampq_le _ _ _ hv,
          le_clampq _ _ _, clampq_le _ _ _ (by norm_num)⟩

/-- Witness for C3 at the concrete state `core_state_ex` and magnitude 7. -/
theorem core_get_point_for_mag_spec_witness :
    core_state_ex.valid ∧
    ((core_state_ex.display_limit_mag < 7 →
        core_get_point_for_mag core_state_ex 7 = none) ∧
     (core_get_point_for_mag core_state_ex 7 = some (3, 1/2) →
        core_state_ex.min_point_radius ≤ 3 ∧ 3 ≤ core_state_ex.max_point_radius ∧
        0 ≤ (1/2 : ℚ) ∧ (1/2 : ℚ) ≤ 1)) := by
  have hv : core_state_ex.valid := by
    show (1 : ℚ) ≤ 10
    norm_num
  exact ⟨hv, core_get_point_for_mag_spec core_state_ex 7 3 (1/2) hv⟩

/-- C9: `core_get_point_for_mag` accepts a null luminance output pointer:
for every state and magnitude, the visibility result and the written radius
agree with those of a call carrying a non-null luminance pointer, and
nothing is ever written through (so it never dereferences) the null
pointer. -/
theorem core_get_point_for_mag_null_ok (c : core_state_t) (mag : ℚ) :
    (core_get_point_for_mag_c c mag true).1
      = (core_get_point_for_mag_c c mag false).1 ∧
    (core_get_point_for_mag_c c mag true).2.1
      = (core_get_point_for_mag_c c mag false).2.1 ∧
    (core_get_point_for_mag_c c mag true).2.2 = none := by
  unfold core_get_point_for_mag_c
  rcases core_get_point_for_mag c mag with _ | ⟨r, l⟩ <;> simp

/-- C4: for every starting state and every sequence of
`core_report_luminance_in_fov` / `core_report_vmag_in_fov` calls, however
small the reported values, after each frame's adaptation update the
invariant `lwmax_min ≤ lwmax` holds. -/
theorem lwmax_never_below_floor (st : adaptation_t)
    (evs : List adapt_event_t) (speed : ℚ) :
    (adapt_run st (evs ++ [adapt_event_t.frame speed])).lwmax_min ≤
      (adapt_run st (evs ++ [adapt_event_t.frame speed])).lwmax := by
  unfold adapt_run
  rw [List.foldl_append]
  simp [adapt_step, adaptation_frame_update]

/-- Helper: componentwise quaternion interpolation reaches the destination
at progress 1. -/
theorem quat_lerp_one (a b : quat_t) : quat_lerp a b 1 = b := by
  cases a with
  | mk ax ay az aw =>
    cases b with
    | mk bx bt bz bw =>
      simp only [quat_lerp, quat_t.mk.injEq]
      refine ⟨by ring, by ring, by ring, by ring⟩

/-- C5: starting any of the three animations (field of view via
`core_zoomto`, time via `core_set_time`, pointing via `core_lookat` /
`core_point_and_lock`) with a zero or negative duration makes the
destination value observable immediately on the very next state read, with
the animation's progress `t = 1`. -/
theorem anim_zero_duration_instant (c : core_anim_t) (fov tt d : ℚ)
    (q : quat_t) (oid : Nat) (h : d ≤ 0) :
    ((core_zoomto c fov d).fov_animation.t = 1 ∧
      (core_zoomto c fov d).fov_animation.value = fov) ∧
    ((core_set_time c tt d).time_animation.t = 1 ∧
      (core_set_time c tt d).time_animation.value = tt) ∧
    ((core_lookat c q d).target.t = 1 ∧
      (core_lookat c q d).target.value = q) ∧
    ((core_point_and_lock c oid q d).target.t = 1 ∧
      (core_point_and_lock c oid q d).target.value = q) := by
  unfold core_zoomto core_set_time core_lookat core_point_and_lock
    anim_start target_start
  simp only [if_pos h]
  refine ⟨⟨?_, ?_⟩, ⟨?_, ?_⟩, ⟨?_, ?_⟩, ⟨?_, ?_⟩⟩ <;>
    first
      | trivial
      | (simp only [anim_t.value]; ring)
      | exact quat_lerp_one _ _

/-- Witness for C5 at the concrete state `core_anim_ex`, destination fov 2,
destination time 3, destination direction `quat_ex`, object id 4, and
duration 0. -/
theorem anim_zero_duration_instant_witness :
    (0 : ℚ) ≤ 0 ∧
    (((core_zoomto core_anim_ex 2 0).fov_animation.t = 1 ∧
       (core_zoomto core_anim_ex 2 0).fov_animation.value = 2) ∧
     ((core_set_time core_anim_ex 3 0).time_animation.t = 1 ∧
       (core_set_time core_anim_ex 3 0).time_animation.value = 3) ∧
     ((core_lookat core_anim_ex quat_ex 0).target.t = 1 ∧
       (core_lookat core_anim_ex quat_ex 0).target.value = quat_ex) ∧
     ((core_point_and_lock core_anim_ex 4 quat_ex 0).target.t = 1 ∧
       (core_point_and_lock core_anim_ex 4 quat_ex 0).target.value = quat_ex)) :=
  ⟨le_refl 0, anim_zero_duration_instant core_anim_ex 2 3 0 quat_ex 4 (le_refl 0)⟩

/-- C6: after `core_point_and_lock` onto an entity, destroying that entity
clears the pointing lock to null, and the subsequent per-frame target
tracking step leaves the state untouched: it never dereferences the
destroyed entity and the pointing-animation target tracking stops
silently. -/
theorem destroyed_lock_cleared (reg : List (Nat × quat_t))
    (c : core_anim_t) (oid : Nat) (q : quat_t) (d : ℚ) :
    (obj_destroy reg (core_point_and_lock c oid q d) oid).2.target.lock
      = none ∧
    core_update_target (obj_destroy reg (core_point_and_lock c oid q d) oid).1
        (obj_destroy reg (core_point_and_lock c oid q d) oid).2
      = (obj_destroy reg (core_point_and_lock c oid q d) oid).2 := by
  constructor
  · simp [obj_destroy, core_point_and_lock, target_start]
  · simp [core_update_target, obj_destroy, core_point_and_lock, target_start]

/-- Helper: running `a + b` scheduler frames is running `a` frames then `b`
frames. -/
theorem sched_run_add (s : sched_t) (a b : Nat) :
    sched_run s (a + b) = sched_run (sched_run s a) b := by
  induction a generalizing s with
  | zero =>
    rw [Nat.zero_add]
    simp [sched_run]
  | succ a ih =>
    rw [Nat.succ_add]
    show sched_run (sched_frame s) (a + b) = _
    rw [ih (sched_frame s)]
    simp [sched_run]

/-- Helper: after two frames of the three-task scenario, B has finished
with two invocations while A and C remain active with two invocations
each. -/
theorem sched_run_abc_two :
    sched_run abc_tasks 2 = ⟨[mkC 2, mkA 2], [mkB 2]⟩ := rfl

/-- Helper: once only the never-terminating tasks A and C remain, every
further frame just increments their invocation counts. -/
theorem sched_run_steady (a b : Nat) (fin : List task_t) (m : Nat) :
    sched_run ⟨[mkC a, mkA b], fin⟩ m
      = ⟨[mkC (a + m), mkA (b + m)], fin⟩ := by
  induction m generalizing a b with
  | zero => simp [sched_run]
  | succ m ih =>
    have h1 : sched_frame ⟨[mkC a, mkA b], fin⟩
        = ⟨[mkC (a + 1), mkA (b + 1)], fin⟩ := by
      simp [sched_frame, tasks_frame, mkA, mkC]
    calc sched_run ⟨[mkC a, mkA b], fin⟩ (m + 1)
        = sched_run (sched_frame ⟨[mkC a, mkA b], fin⟩) m := rfl
      _ = sched_run ⟨[mkC (a + 1), mkA (b + 1)], fin⟩ m := by rw [h1]
      _ = ⟨[mkC (a + 1 + m), mkA (b + 1 + m)], fin⟩ := ih (a + 1) (b + 1)
      _ = ⟨[mkC (a + (m + 1)), mkA (b + (m + 1))], fin⟩ := by
          have e1 : a + 1 + m = a + (m + 1) := by omega
          have e2 : b + 1 + m = b + (m + 1) := by omega
          rw [e1, e2]

/-- C7: in the three-task scenario where B returns the terminal status on
its second invocation, after any `n ≥ 2` frames B has been invoked exactly
twice and is no longer linked in the task list, while A and C have been
invoked once per frame without interruption (`n` times each). -/
theorem task_done_after_two_invocations (n : Nat) (h : 2 ≤ n) :
    invocations (sched_run abc_tasks n) 1 = 2 ∧
    (sched_run abc_tasks n).tasks.all (fun t => t.id != 1) = true ∧
    invocations (sched_run abc_tasks n) 0 = n ∧
    invocations (sched_run abc_tasks n) 2 = n := by
  obtain ⟨m, rfl⟩ : ∃ m, n = 2 + m := ⟨n - 2, by omega⟩
  rw [sched_run_add, sched_run_abc_two, sched_run_steady]
  refine ⟨?_, ?_, ?_, ?_⟩ <;> simp [invocations, mkA, mkB, mkC]

/-- Witness for C7 at the concrete frame count 3. -/
theorem task_done_after_two_invocations_witness :
    2 ≤ 3 ∧
    (invocations (sched_run abc_tasks 3) 1 = 2 ∧
     (sched_run abc_tasks 3).tasks.all (fun t => t.id != 1) = true ∧
     invocations (sched_run abc_tasks 3) 0 = 3 ∧
     invocations (sched_run abc_tasks 3) 2 = 3) :=
  ⟨by norm_num, task_done_after_two_invocations 3 (by norm_num)⟩

/-- Helper: the listing invariant is preserved by every scenario event. -/
theorem listing_inv_step (all : List Nat) (r : listing_t) (e : list_event_t)
    (hall : all.Nodup) (h : listing_inv all r) :
    listing_inv all (listing_step r e) := by
  obtain ⟨⟨loaded, pending⟩, log⟩ := r
  obtain ⟨h1, h2, h3⟩ := h
  cases e with
  | load =>
    cases pending with
    | nil => exact ⟨h1, h2, h3⟩
    | cons a rest =>
      refine ⟨h1, ?_, ?_⟩
      · intro x hx
        have hxl := h2 x hx
        simp only [listing_step, source_load_one, List.mem_append]
        exact Or.inl hxl
      · simp only [listing_step, source_load_one]
        rw [List.append_assoc, List.singleton_append]
        exact h3
  | list =>
    have hcat : (loaded ++ pending).Nodup := (List.Perm.nodup_iff h3).mpr hall
    have hLoaded : loaded.Nodup := hcat.of_append_left
    refine ⟨?_, ?_, h3⟩
    · simp only [listing_step, module_list_objs]
      rw [List.nodup_append]
      refine ⟨h1, hLoaded.filter _, ?_⟩
      intro x hx hx'
      have hnot := (List.mem_filter.mp hx').2
      simp only [decide_eq_true_eq] at hnot
      exact hnot hx
    · intro x hx
      simp only [listing_step, module_list_objs, List.mem_append] at hx
      rcases hx with hxl | hxf
      · exact h2 x hxl
      · exact (List.mem_filter.mp hxf).1

/-- Helper: the listing invariant holds after any run from the initial
state. -/
theorem listing_inv_run (all : List Nat) (evs : List list_event_t)
    (hall : all.Nodup) :
    listing_inv all (listing_run (listing_init all) evs) := by
  have h0 : listing_inv all (listing_init all) := by
    refine ⟨List.nodup_nil, ?_, ?_⟩ <;> simp [listing_init]
  suffices hgen : ∀ r, listing_inv all r → listing_inv all (listing_run r evs)
    from hgen _ h0
  induction evs with
  | nil => exact fun r h => h
  | cons e evs ih => exact fun r h => ih _ (listing_inv_step all r e hall h)

/-- C8: across a sequence of `module_list_objs` calls interleaved with
external loading steps, once the data source has finished loading (no
pending entity remains) a further listing call leaves a visit log that is a
permutation of the universe of entities: every newly available matching
entity has been visited by the callback exactly once — no duplicates and no
omissions. -/
theorem module_list_objs_visits_exactly_once (all : List Nat)
    (evs : List list_event_t) (hall : all.Nodup)
    (hdone : (listing_run (listing_init all) evs).src.pending = []) :
    ((listing_run (listing_init all)
        (evs ++ [list_event_t.list])).log).Perm all := by
  have hinv := listing_inv_run all evs hall
  set r := listing_run (listing_init all) evs with hr
  have hstep : listing_run (listing_init all) (evs ++ [list_event_t.list])
      = listing_step r list_event_t.list := by
    rw [hr]
    unfold listing_run
    rw [List.foldl_append]
    rfl
  rw [hstep]
  have hinv' := listing_inv_step all r list_event_t.list hall hinv
  obtain ⟨h1', h2', h3'⟩ := hinv'
  have hload : (r.src.loaded).Perm all := by
    have h3 := hinv.2.2
    rwa [hdone, List.append_nil] at h3
  have hmem : ∀ x, x ∈ (listing_step r list_event_t.list).log
      ↔ x ∈ r.src.loaded := by
    intro x
    constructor
    · intro hx
      exact h2' x hx
    · intro hx
      by_cases hxl : x ∈ r.log
      · simp only [listing_step, module_list_objs, List.mem_append]
        exact Or.inl hxl
      · simp only [listing_step, module_list_objs, List.mem_append,
          List.mem_filter, decide_eq_true_eq]
        exact Or.inr ⟨hx, hxl⟩
  apply List.perm_of_nodup_nodup_toFinset_eq h1' hall
  ext x
  simp only [List.mem_toFinset]
  rw [hmem x]
  exact hload.mem_iff

/-- Witness for C8: two entities 5 and 7, the first listed while 7 was
still loading (retry-needed), then listed again after loading completed. -/
theorem module_list_objs_visits_exactly_once_witness :
    ([5, 7] : List Nat).Nodup ∧
    (listing_run (listing_init [5, 7])
        [list_event_t.load, list_event_t.list, list_event_t.load]).src.pending
      = [] ∧
    ((listing_run (listing_init [5, 7])
        ([list_event_t.load, list_event_t.list, list_event_t.load]
          ++ [list_event_t.list])).log).Perm [5, 7] :=
  ⟨by decide, by decide,
   module_list_objs_visits_exactly_once [5, 7]
     [list_event_t.load, list_event_t.list, list_event_t.load]
     (by decide) (by decide)⟩

end Stellarium
